import Mathlib

/-!
Verification development for `src/verilator/scripts/convert_verilog_io_to_csv.py`:
a shallow embedding of the expression evaluator, literal normalizer, port
resolver, block scanner and loop-expansion engine, together with theorems
settling the specification claims.

Python machine integers are unbounded, so integers are modelled as `Int`;
Python floor division `//` is `Int.fdiv`, `%` is `Int.fmod`, and `v & 0xFF`
is `Int.land v 255`.  Fallible Python code (raising `ValueError` etc.) is
modelled with `Except EvalError`.
-/

namespace VConv

/-- Characters treated as whitespace by Python `str.strip()` and the regex
class `\s` (space, tab, newline, carriage return, vertical tab, form feed). -/
def pyIsSpace (c : Char) : Bool :=
  c == ' ' || c == '\t' || c == '\n' || c == '\r' || c == Char.ofNat 11 || c == Char.ofNat 12

/-- Strip leading and trailing whitespace from a character list. -/
def stripChars (cs : List Char) : List Char :=
  ((cs.dropWhile pyIsSpace).reverse.dropWhile pyIsSpace).reverse

/-- Python `str.strip()`. -/
def pyStrip (s : String) : String := String.mk (stripChars s.data)

/-- Python `line.rstrip(chr(10))`, applied to each input line by the scanner. -/
def rstripNewline (s : String) : String :=
  String.mk ((s.data.reverse.dropWhile (fun c => c == '\n')).reverse)

/-- Does `pat` occur as a prefix of `cs`? -/
def listIsPrefix (pat cs : List Char) : Bool :=
  match pat, cs with
  | [], _ => true
  | _ :: _, [] => false
  | p :: ps, c :: rest => p == c && listIsPrefix ps rest

/-- Does `pat` occur as a contiguous sublist of `cs`? -/
def listHasInfix (pat : List Char) : List Char → Bool
  | [] => listIsPrefix pat []
  | c :: rest => listIsPrefix pat (c :: rest) || listHasInfix pat rest

/-- Python substring containment test (the `in` operator on `str`). -/
def strContains (s pat : String) : Bool := listHasInfix pat.data s.data

def isDigitC (c : Char) : Bool := c.isDigit

def isHexC (c : Char) : Bool :=
  c.isDigit || ('a' ≤ c && c ≤ 'f') || ('A' ≤ c && c ≤ 'F')

def isOctC (c : Char) : Bool := '0' ≤ c && c ≤ '7'

def isBinC (c : Char) : Bool := c == '0' || c == '1'

def isWordC (c : Char) : Bool := c.isAlphanum || c == '_'

/-- Numeric value of a (decimal or hexadecimal) digit character. -/
def digitV (c : Char) : Nat :=
  if c.isDigit then c.toNat - 48
  else if 'a' ≤ c then c.toNat - 87
  else c.toNat - 55

/-- Fold a list of digit characters into a number in the given base. -/
def digitsVal (base : Nat) (cs : List Char) : Nat :=
  cs.foldl (fun a c => a * base + digitV c) 0

/-- After an initial digit: accept `(("_" digit) | digit)*` with no trailing
or doubled underscore, as in the Python numeric-literal grammar. -/
def undTail (isD : Char → Bool) : List Char → Bool
  | [] => true
  | '_' :: c :: cs => isD c && undTail isD cs
  | '_' :: [] => false
  | c :: cs => isD c && undTail isD cs

/-- A full underscored digit group.  When `allowLead` is set a single leading
underscore is allowed (the form permitted right after a base prefix). -/
def undStart (isD : Char → Bool) (allowLead : Bool) : List Char → Bool
  | [] => false
  | '_' :: c :: cs => allowLead && isD c && undTail isD cs
  | '_' :: [] => false
  | c :: cs => isD c && undTail isD cs

/-- The unsigned part of Python `int(s, 0)`: base prefixes `0x`/`0o`/`0b`,
otherwise decimal, where a leading zero is only allowed when every digit is
zero (`int("07", 0)` raises). -/
def parsePyIntCore (cs : List Char) : Option Nat :=
  match cs with
  | '0' :: x :: rest =>
    if x == 'x' || x == 'X' then
      if undStart isHexC true rest then
        some (digitsVal 16 (rest.filter (fun c => c != '_'))) else none
    else if x == 'o' || x == 'O' then
      if undStart isOctC true rest then
        some (digitsVal 8 (rest.filter (fun c => c != '_'))) else none
    else if x == 'b' || x == 'B' then
      if undStart isBinC true rest then
        some (digitsVal 2 (rest.filter (fun c => c != '_'))) else none
    else
      if undStart (fun c => c == '0') false ('0' :: x :: rest) then some 0 else none
  | _ =>
    if undStart isDigitC false cs then
      some (digitsVal 10 (cs.filter (fun c => c != '_'))) else none

/-- Python `int(s, 0)`: strips whitespace, takes an optional sign, then the
literal grammar above. -/
def parsePyInt (s : String) : Option Int :=
  let cs := stripChars s.data
  match cs with
  | '-' :: r => (parsePyIntCore r).map (fun n => -(n : Int))
  | '+' :: r => (parsePyIntCore r).map (fun n => (n : Int))
  | r => (parsePyIntCore r).map (fun n => (n : Int))

/-- The fixed symbolic port table `PORT_MAP`. -/
def PORT_MAP : List (String × Int) :=
  [("vdp_io0", 0x88), ("vdp_io1", 0x89), ("vdp_io2", 0x8A), ("vdp_io3", 0x8B)]

/-- Port resolution as performed by `io_line`: strip the token, look it up in
`PORT_MAP`, otherwise parse it with `int(p, 0)`. -/
def resolvePort (port : String) : Option Int :=
  let p := pyStrip port
  match PORT_MAP.lookup p with
  | some v => some v
  | none => parsePyInt p

instance {e a : Type} [DecidableEq e] [DecidableEq a] : DecidableEq (Except e a) := fun x y =>
  match x, y with
  | .ok u, .ok v => if h : u = v then .isTrue (by rw [h]) else .isFalse (by simp [h])
  | .error u, .error v => if h : u = v then .isTrue (by rw [h]) else .isFalse (by simp [h])
  | .ok _, .error _ => .isFalse (by simp)
  | .error _, .ok _ => .isFalse (by simp)

/-- Error classes of the converter.  The Python source raises `ValueError`
with distinguishing messages; the spec names the classes
(`UnsupportedConstruct`, `UnknownIdentifier`, `InvalidPort`, `ZeroStepLoop`,
`UnsupportedIncrement`, ...). -/
inductive EvalError where
  | unsupportedConstruct (kind : String)
  | unsupportedBinOp (kind : String)
  | unsupportedUnaryOp (kind : String)
  | unsupportedConstant
  | unknownName (n : String)
  | zeroDivision
  | negativeShift
  | parseFailed
  | emptyLiteralDigits
  | invalidPort
  | zeroStepLoop
  | unsupportedIncrement (txt : String)
deriving DecidableEq, Repr

/-- Binary operator nodes of the Python `ast` module that can appear under
`ast.BinOp`.  Note `div` is the surface token `/` and `floorDiv` is `//`. -/
inductive BOp where
  | add
  | sub
  | mult
  | div
  | floorDiv
  | mod
  | lshift
  | rshift
  | bitOr
  | bitAnd
  | bitXor
  | pow
deriving DecidableEq, Repr

/-- Unary operator nodes under `ast.UnaryOp` (including boolean `not`). -/
inductive UOp where
  | usub
  | uadd
  | invert
  | notOp
deriving DecidableEq, Repr

/-- Expression syntax trees as produced by Python `ast.parse(s, mode="eval")`,
restricted to the node kinds relevant to the evaluator.  `generic_visit`
raises without visiting children, so for the rejected node kinds (`call`,
`compare`, `attrAccess`, `listDisplay`, `ifExp`) only the node itself is
modelled, not its full child lists. -/
inductive PyExpr where
  | intConst (n : Int)
  | nonIntConst
  | name (id : String)
  | binop (op : BOp) (l r : PyExpr)
  | unop (op : UOp) (e : PyExpr)
  | call (fn : PyExpr)
  | compare (l r : PyExpr)
  | attrAccess (obj : PyExpr)
  | listDisplay
  | ifExp (c t e : PyExpr)
deriving DecidableEq, Repr

/-- `EvalExpr.visit_BinOp` operator dispatch: the chain of `isinstance`
checks covers `Add Sub Mult Div Mod LShift RShift BitOr BitAnd BitXor`;
any other operator (notably `FloorDiv` and `Pow`) falls through to
`raise ValueError("unsupported binary op")`.  `ast.Div` (token `/`) is
implemented as Python `left // right`, i.e. floor division. -/
def applyBinOp (op : BOp) (a b : Int) : Except EvalError Int :=
  match op with
  | .add => .ok (a + b)
  | .sub => .ok (a - b)
  | .mult => .ok (a * b)
  | .div => if b = 0 then .error .zeroDivision else .ok (Int.fdiv a b)
  | .mod => if b = 0 then .error .zeroDivision else .ok (Int.fmod a b)
  | .lshift => if b < 0 then .error .negativeShift else .ok (a * (2 ^ b.toNat))
  | .rshift => if b < 0 then .error .negativeShift else .ok (Int.fdiv a (2 ^ b.toNat))
  | .bitOr => .ok (Int.lor a b)
  | .bitAnd => .ok (Int.land a b)
  | .bitXor => .ok (Int.xor a b)
  | .floorDiv => .error (.unsupportedBinOp "FloorDiv")
  | .pow => .error (.unsupportedBinOp "Pow")

/-- The `EvalExpr` visitor: integer constants, name lookup in the supplied
mapping, whitelisted binary and unary operators; every other node kind is
rejected (`generic_visit` / the constant-type and operator checks).
Operands are visited before the operator is dispatched, exactly as in the
source. -/
def evalExpr (names : List (String × Int)) : PyExpr → Except EvalError Int
  | .intConst n => .ok n
  | .nonIntConst => .error .unsupportedConstant
  | .name id =>
    match names.lookup id with
    | some v => .ok v
    | none => .error (.unknownName id)
  | .binop op l r =>
    match evalExpr names l with
    | .error e => .error e
    | .ok a =>
      match evalExpr names r with
      | .error e => .error e
      | .ok b => applyBinOp op a b
  | .unop op e =>
    match evalExpr names e with
    | .error er => .error er
    | .ok a =>
      match op with
      | .usub => .ok (-a)
      | .uadd => .ok a
      | .invert => .ok (-a - 1)
      | .notOp => .error (.unsupportedUnaryOp "Not")
  | .call _ => .error (.unsupportedConstruct "Call")
  | .compare _ _ => .error (.unsupportedConstruct "Compare")
  | .attrAccess _ => .error (.unsupportedConstruct "Attribute")
  | .listDisplay => .error (.unsupportedConstruct "List")
  | .ifExp _ _ _ => .error (.unsupportedConstruct "IfExp")

/-- Did evaluation produce a value? -/
def evalSucceeds (r : Except EvalError Int) : Bool :=
  match r with
  | .ok _ => true
  | .error _ => false

/-- Is the result specifically an `UnsupportedConstruct` failure? -/
def isUnsupportedConstructError (r : Except EvalError Int) : Bool :=
  match r with
  | .error (.unsupportedConstruct _) => true
  | _ => false

/-- Binary operators outside the whitelist actually implemented by
`visit_BinOp` (only `FloorDiv` and `Pow` fall through to the raise). -/
def badBOpImpl : BOp → Bool
  | .floorDiv => true
  | .pow => true
  | _ => false

/-- Binary operators outside the whitelist as the claim states it:
`{+,-,*,floordiv,%,<<,>>,|,&,^}` — so `floorDiv` is whitelisted there and
plain `div` is not. -/
def badBOpSpec : BOp → Bool
  | .div => true
  | .pow => true
  | _ => false

def badUOp : UOp → Bool
  | .notOp => true
  | _ => false

/-- The tree contains a node outside the implementation whitelist
(integer literal, name, accepted binary and unary operators). -/
def containsBadImpl : PyExpr → Bool
  | .intConst _ => false
  | .name _ => false
  | .binop op l r => badBOpImpl op || containsBadImpl l || containsBadImpl r
  | .unop op e => badUOp op || containsBadImpl e
  | _ => true

/-- Modelled from the spec: the tree contains a node outside the whitelist
exactly as the claim words it (integer literal, name, binary operator in
`{+,-,*,floordiv,%,<<,>>,|,&,^}`, unary `{neg,pos,invert}`). -/
def containsBadSpec : PyExpr → Bool
  | .intConst _ => false
  | .name _ => false
  | .binop op l r => badBOpSpec op || containsBadSpec l || containsBadSpec r
  | .unop op e => badUOp op || containsBadSpec e
  | _ => true

/-- Word boundary `\b` to the right of a match: end of input or a non-word
character. -/
def boundaryAfter : List Char → Bool
  | [] => true
  | c :: _ => !isWordC c

/-- Replacement text of `rep_h` / `rep_d`: `hex(int(digits, base))` or
`str(int(digits, 10))`. -/
def litRender (tag : Char) (base : Nat) (digs : List Char) : List Char :=
  if tag == 'h' then '0' :: 'x' :: Nat.toDigits 16 (digitsVal base digs)
  else Nat.toDigits 10 (digitsVal base digs)

/-- One `re.sub` pass for the sized-literal patterns
`\b(\d+)'h([0-9A-Fa-f_]+)\b` and `\b(\d+)'d([0-9_]+)\b`: scan left to right,
tracking whether the previous character is a word character (for `\b`), and
replace each non-overlapping match.  `int("", base)` on an all-underscore
digit group raises, modelled as `emptyLiteralDigits`. -/
def subSized (tag : Char) (digPred : Char → Bool) (base : Nat) :
    Nat → Bool → List Char → Except EvalError (List Char)
  | 0, _, cs => .ok cs
  | _, _, [] => .ok []
  | fuel+1, prevW, c :: rest =>
    let skip : Except EvalError (List Char) :=
      match subSized tag digPred base fuel (isWordC c) rest with
      | .error e => .error e
      | .ok out => .ok (c :: out)
    if !prevW && isDigitC c then
      let ds := (c :: rest).takeWhile isDigitC
      let after := (c :: rest).drop ds.length
      match after with
      | q :: t :: body =>
        if q == Char.ofNat 39 && t == tag then
          let grpC := body.takeWhile (fun ch => digPred ch || ch == '_')
          let remain := body.drop grpC.length
          if grpC.isEmpty || !boundaryAfter remain then skip
          else
            let digs := grpC.filter (fun ch => ch != '_')
            if digs.isEmpty then .error .emptyLiteralDigits
            else
              match subSized tag digPred base fuel true remain with
              | .error e => .error e
              | .ok out => .ok (litRender tag base digs ++ out)
        else skip
      | _ => skip
    else skip

/-- One `re.sub` pass for the unsized-literal patterns
`\'h([0-9A-Fa-f_]+)\b` and `\'d([0-9_]+)\b` (no boundary on the left). -/
def subUnsized (tag : Char) (digPred : Char → Bool) (base : Nat) :
    Nat → List Char → Except EvalError (List Char)
  | 0, cs => .ok cs
  | _, [] => .ok []
  | fuel+1, c :: rest =>
    let skip : Except EvalError (List Char) :=
      match subUnsized tag digPred base fuel rest with
      | .error e => .error e
      | .ok out => .ok (c :: out)
    if c == Char.ofNat 39 then
      match rest with
      | t :: body =>
        if t == tag then
          let grpC := body.takeWhile (fun ch => digPred ch || ch == '_')
          let remain := body.drop grpC.length
          if grpC.isEmpty || !boundaryAfter remain then skip
          else
            let digs := grpC.filter (fun ch => ch != '_')
            if digs.isEmpty then .error .emptyLiteralDigits
            else
              match subUnsized tag digPred base fuel remain with
              | .error e => .error e
              | .ok out => .ok (litRender tag base digs ++ out)
        else skip
      | [] => skip
    else skip

/-- `preprocess_verilog_literals`: the four substitutions in source order,
then every `;` replaced by a space. -/
def preprocessVerilog (s : String) : Except EvalError String :=
  match subSized 'h' isHexC 16 (s.data.length + 1) false s.data with
  | .error e => .error e
  | .ok a =>
    match subSized 'd' isDigitC 10 (a.length + 1) false a with
    | .error e => .error e
    | .ok b =>
      match subUnsized 'h' isHexC 16 (b.length + 1) b with
      | .error e => .error e
      | .ok c =>
        match subUnsized 'd' isDigitC 10 (c.length + 1) c with
        | .error e => .error e
        | .ok d => .ok (String.mk (d.map (fun ch => if ch == ';' then ' ' else ch)))

/-- Tokens of the arithmetic expression fragment of the Python grammar
(the fragment `ast.parse` can feed into `EvalExpr` without an immediate
syntax error: integer literals, identifiers, the arithmetic/bitwise
operators and parentheses).  Anything else fails to tokenize, which models
a `SyntaxError` from `ast.parse`. -/
inductive Tok where
  | intTok (n : Nat)
  | idTok (s : String)
  | opTok (s : String)
deriving DecidableEq, Repr

def twoCharOps : List String := ["//", "<<", ">>", "**"]

def oneCharOps : List Char := ['+', '-', '*', '/', '%', '|', '&', '^', '~', '(', ')', '<', '>']

/-- Tokenizer for the fragment, modelling the Python lexer: maximal-munch
numbers and identifiers, two-character operators before one-character ones. -/
def tokenize : Nat → List Char → Option (List Tok)
  | 0, _ => none
  | _, [] => some []
  | fuel+1, c :: cs =>
    if pyIsSpace c then tokenize fuel cs
    else if isDigitC c then
      let span := (c :: cs).takeWhile isWordC
      match parsePyIntCore span with
      | none => none
      | some n =>
        match tokenize fuel ((c :: cs).drop span.length) with
        | none => none
        | some ts => some (.intTok n :: ts)
    else if c.isAlpha || c == '_' then
      let span := (c :: cs).takeWhile isWordC
      match tokenize fuel ((c :: cs).drop span.length) with
      | none => none
      | some ts => some (.idTok (String.mk span) :: ts)
    else
      match cs with
      | c2 :: cs2 =>
        let two := String.mk [c, c2]
        if twoCharOps.contains two then
          (tokenize fuel cs2).map (fun ts => .opTok two :: ts)
        else if oneCharOps.contains c then
          (tokenize fuel cs).map (fun ts => .opTok (String.mk [c]) :: ts)
        else none
      | [] =>
        if oneCharOps.contains c then some [.opTok (String.mk [c])]
        else none

/-- Binary operators by Python precedence level (7 = lowest used here). -/
def levelOps : Nat → List String
  | 6 => ["|"]
  | 5 => ["^"]
  | 4 => ["&"]
  | 3 => ["<<", ">>"]
  | 2 => ["+", "-"]
  | 1 => ["*", "/", "//", "%"]
  | _ => []

def opToBOp : String → BOp
  | "+" => .add
  | "-" => .sub
  | "*" => .mult
  | "/" => .div
  | "//" => .floorDiv
  | "%" => .mod
  | "<<" => .lshift
  | ">>" => .rshift
  | "|" => .bitOr
  | "&" => .bitAnd
  | _ => .bitXor

mutual

/-- Precedence-climbing parser for the fragment; level 0 is unary operators
and atoms, levels 1-6 the left-associative binary operator tiers. -/
def parseLevel : Nat → Nat → List Tok → Option (PyExpr × List Tok)
  | 0, _, _ => none
  | fuel+1, 0, toks =>
    match toks with
    | .opTok "-" :: rest => (parseLevel fuel 0 rest).map (fun p => (.unop .usub p.1, p.2))
    | .opTok "+" :: rest => (parseLevel fuel 0 rest).map (fun p => (.unop .uadd p.1, p.2))
    | .opTok "~" :: rest => (parseLevel fuel 0 rest).map (fun p => (.unop .invert p.1, p.2))
    | .intTok n :: rest => some (.intConst (n : Int), rest)
    | .idTok s :: rest => some (.name s, rest)
    | .opTok "(" :: rest =>
      match parseLevel fuel 6 rest with
      | some (e, .opTok ")" :: r2) => some (e, r2)
      | _ => none
    | _ => none
  | fuel+1, lvl+1, toks =>
    match parseLevel fuel lvl toks with
    | none => none
    | some (e, r) => parseLoopAux fuel (lvl+1) e r

/-- Fold further `op operand` pairs at one precedence level (left
associative). -/
def parseLoopAux : Nat → Nat → PyExpr → List Tok → Option (PyExpr × List Tok)
  | 0, _, _, _ => none
  | fuel+1, lvl, e, toks =>
    match toks with
    | .opTok o :: rest =>
      if (levelOps lvl).contains o then
        match parseLevel fuel (lvl-1) rest with
        | none => none
        | some (e2, r) => parseLoopAux fuel lvl (.binop (opToBOp o) e e2) r
      else some (e, toks)
    | _ => some (e, toks)

end

/-- `ast.parse(s, mode="eval")` on the fragment grammar; `none` models a
`SyntaxError`. -/
def parseExprString (s : String) : Option PyExpr :=
  match tokenize (s.data.length + 1) s.data with
  | none => none
  | some toks =>
    match parseLevel (20 * (toks.length + 2)) 6 toks with
    | some (e, []) => some e
    | _ => none

/-- `safe_eval`: normalize literals, strip, empty text evaluates to `0`,
otherwise parse and run the visitor. -/
def safeEval (expr : String) (names : List (String × Int)) : Except EvalError Int :=
  match preprocessVerilog expr with
  | .error e => .error e
  | .ok s0 =>
    let s := pyStrip s0
    if s = "" then .ok 0
    else
      match parseExprString s with
      | none => .error .parseFailed
      | some ast => evalExpr names ast

/-- Regular-expression syntax used by the scanner patterns:
character classes, literals, sequencing, ordered alternation, greedy and
lazy Kleene star, numbered capture groups, and end-of-input (`$` on a line
with no trailing newline). -/
inductive Re where
  | eps
  | eos
  | lit (s : String)
  | cls (p : Char → Bool)
  | seq (a b : Re)
  | alt (a b : Re)
  | starG (a : Re)
  | starL (a : Re)
  | group (n : Nat) (a : Re)

/-- Captured groups: group number paired with the matched characters. -/
abbrev Caps := List (Nat × List Char)

/-- Backtracking matcher in continuation-passing style, implementing the
leftmost/greedy/lazy semantics of the Python `re` module for this syntax.
`fuel` bounds the recursion depth; every caller supplies a bound larger
than any reachable depth. -/
def reM : Nat → Re → List Char → Caps → (List Char → Caps → Option Caps) → Option Caps
  | 0, _, _, _, _ => none
  | fuel+1, re, cs, caps, k =>
    match re with
    | .eps => k cs caps
    | .eos =>
      match cs with
      | [] => k cs caps
      | _ => none
    | .lit s => if listIsPrefix s.data cs then k (cs.drop s.data.length) caps else none
    | .cls p =>
      match cs with
      | [] => none
      | c :: rest => if p c then k rest caps else none
    | .seq a b => reM fuel a cs caps (fun cs2 caps2 => reM fuel b cs2 caps2 k)
    | .alt a b =>
      match reM fuel a cs caps k with
      | some r => some r
      | none => reM fuel b cs caps k
    | .starG a =>
      match reM fuel a cs caps (fun cs2 caps2 =>
          if cs2.length < cs.length then reM fuel (.starG a) cs2 caps2 k else none) with
      | some r => some r
      | none => k cs caps
    | .starL a =>
      match k cs caps with
      | some r => some r
      | none =>
        reM fuel a cs caps (fun cs2 caps2 =>
          if cs2.length < cs.length then reM fuel (.starL a) cs2 caps2 k else none)
    | .group n a =>
      reM fuel a cs caps (fun cs2 caps2 =>
        k cs2 ((n, cs.take (cs.length - cs2.length)) :: caps2))

/-- Depth bound for `reM` on input `cs` (quadratic, generous). -/
def reFuel (cs : List Char) : Nat := (cs.length + 8) * (cs.length + 8) * 8 + 500

/-- Attempt a match anchored at the start of `cs` (Python `re.match`). -/
def reTry (re : Re) (cs : List Char) : Option Caps :=
  reM (reFuel cs) re cs [] (fun _ caps => some caps)

/-- Scan for the leftmost match (Python `re.search`). -/
def reSearchAux (re : Re) : Nat → List Char → Option Caps
  | 0, _ => none
  | fuel+1, cs =>
    match reTry re cs with
    | some caps => some caps
    | none =>
      match cs with
      | [] => none
      | _ :: rest => reSearchAux re fuel rest

def reSearch (re : Re) (s : String) : Option Caps :=
  reSearchAux re (s.data.length + 1) s.data

def reMatchStart (re : Re) (s : String) : Option Caps := reTry re s.data

/-- `m.group(n)` (empty string when the group is absent). -/
def grp (caps : Caps) (n : Nat) : String :=
  match caps.lookup n with
  | some cs => String.mk cs
  | none => ""

def wsStar : Re := .starG (.cls pyIsSpace)

/-- `.` without `re.DOTALL`: any character except newline. -/
def dotC : Re := .cls (fun c => c != '\n')

/-- `.` under `re.S`: any character. -/
def anyC : Re := .cls (fun _ => true)

def digitRe : Re := .cls isDigitC

def seqs (l : List Re) : Re := l.foldr .seq .eps

def plusG (a : Re) : Re := .seq a (.starG a)

def plusL (a : Re) : Re := .seq a (.starL a)

/-- `re_comment = ^\s*//\s*(.*)$`, used with `re.match` on a line that has
no trailing newline, so `$` is end of input. -/
def reComment : Re := seqs [wsStar, .lit "//", wsStar, .group 1 (.starG dotC), .eos]

/-- The port alternation `(vdp_io[0-3]|0x[0-9A-Fa-f]+|\d+)`. -/
def portAltRe : Re :=
  .alt (.seq (.lit "vdp_io") (.cls (fun c => '0' ≤ c && c ≤ '3')))
    (.alt (.seq (.lit "0x") (plusG (.cls isHexC))) (plusG digitRe))

/-- Body of `re_write` with configurable group numbers:
`write_io\s*\(\s*(port)\s*,\s*(.+?)\s*\)\s*;`. -/
def writeCore (gp gv : Nat) : Re :=
  seqs [.lit "write_io", wsStar, .lit "(", wsStar, .group gp portAltRe,
    wsStar, .lit ",", wsStar, .group gv (plusL dotC),
    wsStar, .lit ")", wsStar, .lit ";"]

def reWrite : Re := writeCore 1 2

/-- `re_repeat_inline = repeat\s*\(\s*(\d+)\s*\)\s*write_io\s*\(...\)\s*;`. -/
def reRepeatInline : Re :=
  seqs [.lit "repeat", wsStar, .lit "(", wsStar, .group 1 (plusG digitRe),
    wsStar, .lit ")", wsStar, writeCore 2 3]

/-- `re_for_header = for\s*\(\s*i\s*=\s*(.+?)\s*;\s*i\s*<\s*(.+?)\s*;\s*(.+?)\s*\)\s*begin`
with `re.S`, so `.` also matches newlines. -/
def reForHeader : Re :=
  seqs [.lit "for", wsStar, .lit "(", wsStar, .lit "i", wsStar, .lit "=", wsStar,
    .group 1 (plusL anyC), wsStar, .lit ";", wsStar, .lit "i", wsStar, .lit "<", wsStar,
    .group 2 (plusL anyC), wsStar, .lit ";", wsStar, .group 3 (plusL anyC), wsStar,
    .lit ")", wsStar, .lit "begin"]

/-- `begin\s*(.*?)\s*end` with `re.S`, extracting the loop body. -/
def reInner : Re := seqs [.lit "begin", wsStar, .group 1 (.starL anyC), wsStar, .lit "end"]

/-- `repeat\s*\(\s*(\d+)\s*\)` searched in a standalone line. -/
def reRepeatAlone : Re :=
  seqs [.lit "repeat", wsStar, .lit "(", wsStar, .group 1 (plusG digitRe), wsStar, .lit ")"]

/-- `i\s*\+=\s*(.+)` (anchored, `re.match`). -/
def reIncPlusEq : Re := seqs [.lit "i", wsStar, .lit "+=", wsStar, .group 1 (plusG dotC)]

/-- `i\s*=\s*i\s*\+\s*(.+)` (anchored, `re.match`). -/
def reIncAssign : Re :=
  seqs [.lit "i", wsStar, .lit "=", wsStar, .lit "i", wsStar, .lit "+", wsStar,
    .group 1 (plusG dotC)]

/-- `parse_increment_expr`: `...++` gives step 1, `i += e` and `i = i + e`
evaluate `e`, and any other text falls back to evaluating the whole text,
failing with `UnsupportedIncrement` only when that also fails. -/
def parseIncrementExpr (inc : String) : Except EvalError Int :=
  let s := pyStrip inc
  match s.data.reverse with
  | '+' :: '+' :: _ => .ok 1
  | _ =>
    match reMatchStart reIncPlusEq s with
    | some m => safeEval (grp m 1) []
    | none =>
      match reMatchStart reIncAssign s with
      | some m => safeEval (grp m 1) []
      | none =>
        match safeEval s [] with
        | .ok v => .ok v
        | .error _ => .error (.unsupportedIncrement inc)

/-- Output events.  The CSV lines `IO,...` and `INFO,...` are abstracted as
`io` and `info`; the block of C text produced by `c_loop_for_write` is one
`compact` event (rendered back to its five lines by `renderEvent`). -/
inductive Event where
  | io (portnum : Int) (value : Int)
  | info (text : String)
  | compact (port : String) (portnum : Int) (startV endV stepV : Int) (body : String)
deriving DecidableEq, Repr

/-- `io_line(port, value)`: resolve the port (raising for an unparseable
token) and mask the value to 8 bits (`value & 0xFF`). -/
def ioLine (port : String) (value : Int) : Except EvalError Event :=
  match resolvePort port with
  | some pn => .ok (.io pn (Int.land value 255))
  | none => .error .invalidPort

/-- `c_loop_for_write`: the port number is
`PORT_MAP.get(port, int(port, 0))`, and Python evaluates the default
`int(port, 0)` eagerly — so a symbolic (non-numeric) port token raises even
though it is present in `PORT_MAP`.  The body expression is stored after
literal normalization. -/
def cLoopForWrite (port : String) (startV endV stepV : Int) (expr : String) :
    Except EvalError Event :=
  match parsePyInt port with
  | none => .error .invalidPort
  | some d =>
    match preprocessVerilog expr with
    | .error e => .error e
    | .ok body => .ok (.compact port ((PORT_MAP.lookup port).getD d) startV endV stepV body)

/-- Number of elements of Python `range(start, stop, step)` (for nonzero
step: `max(0, ceil((stop - start) / step))`). -/
def pyRangeLen (startV stopV stepV : Int) : Nat :=
  if 0 < stepV then ((stopV - startV).toNat + (stepV.toNat - 1)) / stepV.toNat
  else if stepV < 0 then ((startV - stopV).toNat + ((-stepV).toNat - 1)) / (-stepV).toNat
  else 0

/-- Python `range(start, stop, step)` as a list. -/
def pyRange (startV stopV stepV : Int) : List Int :=
  (List.range (pyRangeLen startV stopV stepV)).map (fun (k : Nat) => startV + stepV * (k : Int))

/-- Effectful map that stops at the first error (the loop in `process_lines`
appends events one iteration at a time and any raise aborts the whole run,
discarding all output). -/
def mapME (f : α → Except EvalError Event) : List α → Except EvalError (List Event)
  | [] => .ok []
  | x :: xs =>
    match f x with
    | .error e => .error e
    | .ok ev =>
      match mapME f xs with
      | .error e => .error e
      | .ok evs => .ok (ev :: evs)

/-- The iteration count computed at lines 238-241:
`(end - start + step - 1) // step` when `end > start and step > 0`, else 0. -/
def totalIters (startV endV stepV : Int) : Int :=
  if endV > startV ∧ 0 < stepV then (endV - startV + stepV - 1).fdiv stepV else 0

/-- One loop iteration: `val = safe_eval(body, names={'i': iv})` then
`io_line(port, val)`. -/
def loopBody (port bodyExpr : String) (iv : Int) : Except EvalError Event :=
  match safeEval bodyExpr [("i", iv)] with
  | .error e => .error e
  | .ok v => ioLine port v

/-- The loop-expansion engine (lines 234-248): zero step raises before any
iteration; a large enough count with compact emission enabled produces the
compact C loop; otherwise the loop is unrolled over `range(start, end, step)`. -/
def expandFor (emitC : Bool) (thr : Int) (port bodyExpr : String)
    (startV endV stepV : Int) : Except EvalError (List Event) :=
  if stepV = 0 then .error .zeroStepLoop
  else if totalIters startV endV stepV > thr ∧ emitC = true then
    match cLoopForWrite port startV endV stepV bodyExpr with
    | .error e => .error e
    | .ok ev => .ok [ev]
  else mapME (loopBody port bodyExpr) (pyRange startV endV stepV)

/-- A bare `write_io(port, expr);`: evaluate the expression with no loop
variable bound, then emit one IO event. -/
def bareWrite (port expr : String) : Except EvalError Event :=
  match safeEval expr [] with
  | .error e => .error e
  | .ok v => ioLine port v

/-- Inline repeat: the expression is evaluated once, then `io_line` runs on
each of the `cnt` iterations. -/
def repInline (cnt : Nat) (port expr : String) : Except EvalError (List Event) :=
  match safeEval expr [] with
  | .error e => .error e
  | .ok v => mapME (fun _ => ioLine port v) (List.replicate cnt 0)

/-- Standalone repeat followed by a write line: `safe_eval` and `io_line`
run on every iteration. -/
def repStandalone (cnt : Nat) (port expr : String) : Except EvalError (List Event) :=
  mapME (fun _ => bareWrite port expr) (List.replicate cnt 0)

/-- Accumulate a for-block: starting from the (newline-stripped) trigger
line, append raw following lines until one containing `end` is consumed;
returns the block text and the remaining lines. -/
def accumBlock : String → List String → String × List String
  | blk, [] => (blk, [])
  | blk, l :: ls =>
    let blk2 := blk ++ "\n" ++ l
    if strContains l "end" then (blk2, ls) else accumBlock blk2 ls

/-- Handling of an accumulated for-block (lines 218-252): a failed header
match emits only the trigger line as INFO; a matched header whose body has
no write call emits the whole block as INFO; otherwise start, end and
increment are evaluated and the loop is expanded. -/
def handleBlock (emitC : Bool) (thr : Int) (line block : String) :
    Except EvalError (List Event) :=
  match reSearch reForHeader block with
  | none => .ok [.info (pyStrip line)]
  | some hm =>
    let startE := pyStrip (grp hm 1)
    let endE := pyStrip (grp hm 2)
    let incE := pyStrip (grp hm 3)
    let inner :=
      match reSearch reInner block with
      | some im => grp im 1
      | none => ""
    match reSearch reWrite inner with
    | none => .ok [.info (pyStrip block)]
    | some wm =>
      let port := grp wm 1
      let bodyE := pyStrip (grp wm 2)
      match safeEval startE [] with
      | .error e => .error e
      | .ok sv =>
        match safeEval endE [] with
        | .error e => .error e
        | .ok ev =>
          match parseIncrementExpr incE with
          | .error e => .error e
          | .ok st => expandFor emitC thr port bodyE sv ev st

/-- Decimal digits of a capture group to a number. -/
def digitsToNat (s : String) : Nat := digitsVal 10 s.data

/-- The scanner loop of `process_lines`, case by case in source order:
blank line, comment, inline repeat (anchored match), for-block trigger
(`for` and `begin` substrings), searched bare write, standalone repeat with
blank-skipping lookahead, and the INFO fallback.  `fuel` bounds the number
of iterations; each iteration consumes at least one line. -/
def goLines (emitC : Bool) (thr : Int) : Nat → List String → Except EvalError (List Event)
  | 0, _ => .ok []
  | _, [] => .ok []
  | fuel+1, l :: rest =>
    let line := rstripNewline l
    if pyStrip line = "" then goLines emitC thr fuel rest
    else
      match reMatchStart reComment line with
      | some m =>
        (goLines emitC thr fuel rest).map (fun evs => .info (pyStrip (grp m 1)) :: evs)
      | none =>
        match reMatchStart reRepeatInline line with
        | some m =>
          match repInline (digitsToNat (grp m 1)) (grp m 2) (grp m 3) with
          | .error e => .error e
          | .ok evs1 => (goLines emitC thr fuel rest).map (fun evs2 => evs1 ++ evs2)
        | none =>
          if strContains line "for" && strContains line "begin" then
            let br :=
              if strContains line "end" then (line, rest) else accumBlock line rest
            match handleBlock emitC thr line br.1 with
            | .error e => .error e
            | .ok evs1 => (goLines emitC thr fuel br.2).map (fun evs2 => evs1 ++ evs2)
          else
            match reSearch reWrite line with
            | some m =>
              match bareWrite (grp m 1) (grp m 2) with
              | .error e => .error e
              | .ok ev => (goLines emitC thr fuel rest).map (fun evs => ev :: evs)
            | none =>
              match reSearch reRepeatAlone line with
              | some m =>
                let rest2 := rest.dropWhile (fun x => pyStrip x = "")
                match rest2 with
                | [] => .ok [.info (pyStrip line)]
                | nxt :: rest3 =>
                  match reSearch reWrite (pyStrip nxt) with
                  | some m2 =>
                    match repStandalone (digitsToNat (grp m 1)) (grp m2 1) (grp m2 2) with
                    | .error e => .error e
                    | .ok evs1 =>
                      (goLines emitC thr fuel rest3).map (fun evs2 => evs1 ++ evs2)
                  | none =>
                    (goLines emitC thr fuel rest3).map
                      (fun evs => .info (pyStrip line) :: evs)
              | none =>
                (goLines emitC thr fuel rest).map (fun evs => .info (pyStrip line) :: evs)

/-- `process_lines(lines, emit_c_for_large, expand_threshold)`. -/
def processLines (emitC : Bool) (thr : Int) (lines : List String) :
    Except EvalError (List Event) :=
  goLines emitC thr (lines.length + 1) lines

def dq : Char := '"'

/-- `info_line` escaping: each `"` in the text is doubled. -/
def escQuotes (s : String) : String :=
  String.mk (s.data.foldr (fun c acc => if c == dq then dq :: dq :: acc else c :: acc) [])

/-- Two-digit lowercase hexadecimal (`{:02x}` on the nonnegative numbers the
converter produces). -/
def hex2 (n : Int) : String :=
  let cs := Nat.toDigits 16 n.toNat
  String.mk (if cs.length = 1 then '0' :: cs else cs)

/-- Python `{:#x}` formatting. -/
def pyHexLit (n : Int) : String :=
  if n < 0 then "-0x" ++ String.mk (Nat.toDigits 16 (-n).toNat)
  else "0x" ++ String.mk (Nat.toDigits 16 n.toNat)

/-- Render an event to its output lines: the CSV line grammar for IO and
INFO events, and the five C lines of `c_loop_for_write` for a compact
event. -/
def renderEvent : Event → List String
  | .info t => ["INFO," ++ String.mk (dq :: (escQuotes t).data ++ [dq])]
  | .io pn v => ["IO,0x" ++ hex2 pn ++ ",0x" ++ hex2 v]
  | .compact port pn s e st body =>
    ["// Generated C loop for " ++ port ++ " : " ++ pyHexLit s ++ " .. " ++ pyHexLit e
        ++ " step " ++ toString st,
      "for (uint32_t i = " ++ pyHexLit s ++ "; i < " ++ pyHexLit e ++ "; i += "
        ++ toString st ++ ") \x7b",
      "    uint8_t v = (uint8_t)(" ++ body ++ " & 0xff);",
      "    vdp_cartridge_write_io(0x" ++ hex2 pn ++ ", v);",
      "\x7d"]

/-- The run after argument parsing: `process_lines` then printing every
produced line.  An uncaught evaluation error aborts the interpreter with
exit status 1 and nothing on standard output. -/
def runConverter (emitC : Bool) (lines : List String) : Nat × List String :=
  match processLines emitC 200000 lines with
  | .ok evs => (0, (evs.map renderEvent).flatten)
  | .error _ => (1, [])

/-- Argument handling of `main`: `-h`/`--help` first, then an optional
leading `--emit-c`, then at most one positional argument; violations reach
`usage_and_exit` (exit status 2).  Returns the compact-emission flag. -/
def parseArgsModel (args : List String) : Option Bool :=
  match args with
  | [] => some false
  | a :: _ =>
    if a = "-h" ∨ a = "--help" then none
    else
      let emitC := a = "--emit-c"
      let rest := if a = "--emit-c" then args.tail else args
      if rest.length > 1 then none else some emitC

/-- `main`, with the selected input source supplied as `input`: usage errors
exit 2 before any processing; otherwise the converter runs. -/
def mainModel (args : List String) (input : List String) : Nat × List String :=
  match parseArgsModel args with
  | none => (2, [])
  | some emitC => runConverter emitC input

/-! ### Helper lemmas -/

theorem mapME_ok {α : Type} {f : α → Except EvalError Event} {g : α → Event} :
    ∀ l : List α, (∀ x ∈ l, f x = .ok (g x)) → mapME f l = .ok (l.map g)
  | [], _ => rfl
  | x :: xs, h => by
    have hx : f x = .ok (g x) := h x (List.mem_cons_self x xs)
    have hxs := mapME_ok xs (fun y hy => h y (List.mem_cons_of_mem x hy))
    simp [mapME, hx, hxs]

theorem pyRange_length (s e st : Int) : (pyRange s e st).length = pyRangeLen s e st := by
  rw [pyRange, List.length_map, List.length_range]

theorem pyRange_get (s e st : Int) (k : Nat) (h : k < (pyRange s e st).length) :
    (pyRange s e st).get ⟨k, h⟩ = s + st * k := by
  simp only [pyRange, List.get_eq_getElem, List.getElem_map, List.getElem_range]

theorem pyRange_mem {s e st x : Int} (hx : x ∈ pyRange s e st) :
    ∃ k : Nat, k < pyRangeLen s e st ∧ x = s + st * k := by
  rw [pyRange] at hx
  obtain ⟨k, hk, hkx⟩ := List.mem_map.mp hx
  exact ⟨k, List.mem_range.mp hk, hkx.symm⟩

/-- Every element of an ascending `range(start, stop, step)` is at least
`start` and strictly below `stop`. -/
theorem pyRange_bounds {s e st : Int} (hst : 0 < st) :
    ∀ x ∈ pyRange s e st, s ≤ x ∧ x < e := by
  intro x hx
  obtain ⟨k, hk, rfl⟩ := pyRange_mem hx
  have hstk : 0 ≤ st * (k : Int) := mul_nonneg hst.le (Int.natCast_nonneg k)
  refine ⟨by linarith, ?_⟩
  have hd : 0 < st.toNat := by omega
  rw [pyRangeLen, if_pos hst] at hk
  rcases le_or_lt e s with hes | hes
  · exfalso
    have ha : (e - s).toNat = 0 := by omega
    rw [ha] at hk
    have hz : (0 + (st.toNat - 1)) / st.toNat = 0 := Nat.div_eq_of_lt (by omega)
    omega
  · have ha : ((e - s).toNat : Int) = e - s := Int.toNat_of_nonneg (by omega)
    have h1 : (((e - s).toNat + (st.toNat - 1)) / st.toNat) * st.toNat
        ≤ (e - s).toNat + (st.toNat - 1) := Nat.div_mul_le_self _ _
    have h2 : (k + 1) * st.toNat ≤ (((e - s).toNat + (st.toNat - 1)) / st.toNat) * st.toNat :=
      Nat.mul_le_mul_right _ (Nat.succ_le_of_lt hk)
    have h3 : k * st.toNat + st.toNat ≤ (e - s).toNat + (st.toNat - 1) := by
      calc k * st.toNat + st.toNat = (k + 1) * st.toNat := by ring
        _ ≤ (e - s).toNat + (st.toNat - 1) := le_trans h2 h1
    have h4 : k * st.toNat < (e - s).toNat := by
      generalize hm : k * st.toNat = m at h3
      omega
    have h5 : st * (k : Int) < e - s := by
      have hc := (Int.ofNat_lt).mpr h4
      push_cast at hc
      rw [Int.toNat_of_nonneg hst.le] at hc
      rw [ha] at hc
      linarith [mul_comm (k : Int) st]
    linarith

/-- For an ascending loop the iteration count computed by the source agrees
with the length of `range(start, end, step)`. -/
theorem totalIters_eq_len {s e st : Int} (hse : s < e) (hst : 0 < st) :
    totalIters s e st = (pyRangeLen s e st : Int) := by
  have hd : 0 < st.toNat := by omega
  have h1 : e - s + st - 1 = (((e - s).toNat + (st.toNat - 1) : Nat) : Int) := by omega
  have hst' : (st.toNat : Int) = st := Int.toNat_of_nonneg hst.le
  rw [totalIters, if_pos ⟨hse, hst⟩, pyRangeLen, if_pos hst, h1, Int.ofNat_fdiv, hst']

/-! ### Claims -/

/-- Claim C1 (counterexample): the claim whitelists the binary operators
`{+,-,*,floordiv,%,<<,>>,|,&,^}`, so a tree containing a plain division
node (`/`) contains a non-whitelisted node and would have to fail; but the
evaluator implements `ast.Div` (as floor division) and `10 / 3` evaluates
successfully to `3`. -/
theorem c1_counterexample :
    containsBadSpec (.binop .div (.intConst 10) (.intConst 3)) = true ∧
    evalExpr [] (.binop .div (.intConst 10) (.intConst 3)) = .ok 3 ∧
    evalSucceeds (evalExpr [] (.binop .div (.intConst 10) (.intConst 3))) = true := by
  refine ⟨rfl, by decide, by decide⟩

/-- Claim C1 (amended): for every expression tree containing any node other
than an integer literal, a name, a binary operator in
`{+,-,*,/,%,<<,>>,|,&,^}` (with `/` evaluating by floor semantics — the
`floordiv` node itself is rejected), or a unary operator in
`{neg,pos,invert}`, evaluation produces no value, for every variable
binding supplied. -/
theorem c1_nonwhitelisted_never_evaluates :
    ∀ e : PyExpr, containsBadImpl e = true →
      ∀ names : List (String × Int), evalSucceeds (evalExpr names e) = false := by
  intro e
  induction e with
  | intConst n => intro hb _; simp [containsBadImpl] at hb
  | nonIntConst => intro _ _; rfl
  | name id => intro hb _; simp [containsBadImpl] at hb
  | binop op l r ihl ihr =>
    intro hb names
    have hb' : (badBOpImpl op = true ∨ containsBadImpl l = true) ∨ containsBadImpl r = true := by
      simpa [containsBadImpl, Bool.or_eq_true] using hb
    cases h1 : evalExpr names l with
    | error e1 => simp [evalExpr, h1, evalSucceeds]
    | ok a =>
      cases h2 : evalExpr names r with
      | error e2 => simp [evalExpr, h1, h2, evalSucceeds]
      | ok b =>
        rcases hb' with (hop | hl) | hr
        · cases op <;> simp_all [badBOpImpl, evalExpr, applyBinOp, evalSucceeds]
        · have hcl := ihl hl names
          rw [h1] at hcl
          simp [evalSucceeds] at hcl
        · have hcr := ihr hr names
          rw [h2] at hcr
          simp [evalSucceeds] at hcr
  | unop op e ih =>
    intro hb names
    have hb' : badUOp op = true ∨ containsBadImpl e = true := by
      simpa [containsBadImpl, Bool.or_eq_true] using hb
    cases h1 : evalExpr names e with
    | error e1 => simp [evalExpr, h1, evalSucceeds]
    | ok a =>
      rcases hb' with hop | he
      · cases op <;> simp_all [badUOp, evalExpr, evalSucceeds]
      · have hce := ih he names
        rw [h1] at hce
        simp [evalSucceeds] at hce
  | call fn _ => intro _ _; rfl
  | compare l r _ _ => intro _ _; rfl
  | attrAccess obj _ => intro _ _; rfl
  | listDisplay => intro _ _; rfl
  | ifExp c t e _ _ _ => intro _ _; rfl

/-- Claim C1 (witness): a concrete call node is non-whitelisted and its
evaluation under the empty binding produces no value. -/
theorem c1_witness :
    containsBadImpl (.call (.name "f")) = true ∧
    evalSucceeds (evalExpr [] (.call (.name "f"))) = false :=
  ⟨rfl, c1_nonwhitelisted_never_evaluates (.call (.name "f")) rfl []⟩

/-- Claim C2 (counterexample): the surface token `//` parses to a
`FloorDiv` node, which `visit_BinOp` does not handle, so `"10 // 3"` fails
instead of evaluating to 3. -/
theorem c2_counterexample :
    parseExprString "10 // 3" = some (.binop .floorDiv (.intConst 10) (.intConst 3)) ∧
    safeEval "10 // 3" [] = .error (.unsupportedBinOp "FloorDiv") := by
  refine ⟨by decide, by decide⟩

/-- Claim C2 (amended): the evaluator rejects the floor-division token `//`
(`FloorDiv` is not among the handled operators); instead the `/` operator is
evaluated with floor semantics, so for every pair of integers with nonzero
divisor `a / b` evaluates to the floor of the quotient, and in particular
`"10 / 3"` evaluates to 3. -/
theorem c2_slash_is_floor_division :
    safeEval "10 / 3" [] = .ok 3 ∧
    (∀ a b : Int, b ≠ 0 →
      evalExpr [] (.binop .div (.intConst a) (.intConst b)) = .ok (Int.fdiv a b)) ∧
    applyBinOp .floorDiv 10 3 = .error (.unsupportedBinOp "FloorDiv") := by
  refine ⟨by decide, ?_, rfl⟩
  intro a b hb
  simp [evalExpr, applyBinOp, hb]

/-- Claim C2 (witness): the amended statement applied at `a = 10`, `b = 3`. -/
theorem c2_witness :
    evalExpr [] (.binop .div (.intConst 10) (.intConst 3)) = .ok (Int.fdiv 10 3) :=
  c2_slash_is_floor_division.2.1 10 3 (by decide)

/-- Claim C3 (counterexample): a loop over a symbolic port with the count
above the threshold and compact emission enabled does not emit a
`CompactLoopEvent`: `c_loop_for_write` evaluates `int(port, 0)` eagerly as
the `dict.get` default, which raises on `"vdp_io0"`, so the run fails. -/
theorem c3_counterexample :
    totalIters 0 10 1 = 10 ∧ (10 : Int) > 2 ∧
    expandFor true 2 "vdp_io0" "i" 0 10 1 = .error .invalidPort := by
  refine ⟨by decide, by decide, by decide⟩

/-- Claim C3 (amended): for a well-formed ascending loop, when the compact
branch is not selected the loop expands to exactly `total_iterations` IO
events, one per range element in ascending order with the body value masked
to 8 bits; when the compact branch is selected, a numeric port token yields
exactly one compact event carrying the bounds, step, resolved port and
normalized body, while a symbolic (non-numeric) port token makes the run
fail with an error. -/
theorem c3_loop_expansion
    (emitC : Bool) (thr : Int) (port bodyExpr : String) (startV endV stepV : Int)
    (hse : startV < endV) (hst : 0 < stepV)
    (pn : Int) (hport : resolvePort port = some pn)
    (f : Int → Int)
    (hbody : ∀ iv ∈ pyRange startV endV stepV, safeEval bodyExpr [("i", iv)] = .ok (f iv)) :
    (¬(totalIters startV endV stepV > thr ∧ emitC = true) →
      expandFor emitC thr port bodyExpr startV endV stepV
        = .ok ((pyRange startV endV stepV).map
            (fun iv => .io pn (Int.land (f iv) 255)))) ∧
    (pyRange startV endV stepV).length = (totalIters startV endV stepV).toNat ∧
    (∀ x ∈ pyRange startV endV stepV, startV ≤ x ∧ x < endV) ∧
    (∀ (k : Nat) (hk : k < (pyRange startV endV stepV).length),
      (pyRange startV endV stepV).get ⟨k, hk⟩ = startV + stepV * k) ∧
    ((totalIters startV endV stepV > thr ∧ emitC = true) →
      (∀ d : Int, parsePyInt port = some d →
        ∀ body2 : String, preprocessVerilog bodyExpr = .ok body2 →
          expandFor emitC thr port bodyExpr startV endV stepV
            = .ok [.compact port ((PORT_MAP.lookup port).getD d) startV endV stepV body2]) ∧
      (parsePyInt port = none →
        expandFor emitC thr port bodyExpr startV endV stepV = .error .invalidPort)) := by
  refine ⟨?_, ?_, pyRange_bounds hst, pyRange_get startV endV stepV, ?_⟩
  · intro hnc
    rw [expandFor, if_neg (by omega), if_neg hnc]
    refine mapME_ok _ (fun iv hiv => ?_)
    simp only [loopBody, ioLine, hbody iv hiv, hport]
  · rw [pyRange_length, totalIters_eq_len hse hst, Int.toNat_natCast]
  · intro hc
    constructor
    · intro d hd body2 hb2
      rw [expandFor, if_neg (by omega), if_pos hc, cLoopForWrite, hd, hb2]
    · intro hd
      rw [expandFor, if_neg (by omega), if_pos hc, cLoopForWrite, hd]

/-- Claim C3 (witness): the amended theorem applied to a compact case with
numeric port `0x88` and to an expanded case with symbolic port `vdp_io0`. -/
theorem c3_witness :
    expandFor true 2 "0x88" "i" 0 10 1 = .ok [.compact "0x88" 136 0 10 1 "i"] ∧
    expandFor false 200000 "vdp_io0" "i" 0 3 1
      = .ok [.io 136 0, .io 136 1, .io 136 2] := by
  constructor
  · have h := (c3_loop_expansion true 2 "0x88" "i" 0 10 1 (by decide) (by decide)
      136 (by decide) (fun iv => iv) (by decide)).2.2.2.2 (by decide)
    have h2 := h.1 136 (by decide) "i" (by decide)
    simpa using h2
  · have h := (c3_loop_expansion false 200000 "vdp_io0" "i" 0 3 1 (by decide) (by decide)
      136 (by decide) (fun iv => iv) (by decide)).1 (by simp)
    rw [h]
    decide

/-- Claim C4: a for-loop block whose increment evaluates to step zero fails
with `ZeroStepLoop` before any iteration runs, for every configuration and
every loop bound; at run level the specification example produces no output
at all and the process exits with a nonzero status. -/
theorem c4_zero_step_loop :
    (∀ (emitC : Bool) (thr : Int) (port bodyExpr : String) (startV endV : Int),
      expandFor emitC thr port bodyExpr startV endV 0 = .error .zeroStepLoop) ∧
    processLines false 200000
      ["for (i=0;i<10;i+=0) begin\n", "write_io(vdp_io0, 1);\n", "end\n"]
      = .error .zeroStepLoop ∧
    runConverter false
      ["for (i=0;i<10;i+=0) begin\n", "write_io(vdp_io0, 1);\n", "end\n"] = (1, []) := by
  refine ⟨?_, by decide, by decide⟩
  intro emitC thr port bodyExpr startV endV
  simp [expandFor]

/-- Claim C9: for a descending loop (negative step, end below start) the
ascending-only formula computes zero iterations, so the compact branch is
never taken (for any nonnegative threshold and either compact flag), yet
the per-iteration unrolling emits one IO event per element of
`range(start, end, step)`, which is nonempty — the emitted count disagrees
with the computed iteration count. -/
theorem c9_descending_loop_inconsistency
    (emitC : Bool) (thr : Int) (port bodyExpr : String) (startV endV stepV : Int)
    (hst : stepV < 0) (hse : endV < startV) (hthr : 0 ≤ thr)
    (pn : Int) (hport : resolvePort port = some pn)
    (f : Int → Int)
    (hbody : ∀ iv ∈ pyRange startV endV stepV, safeEval bodyExpr [("i", iv)] = .ok (f iv)) :
    totalIters startV endV stepV = 0 ∧
    expandFor emitC thr port bodyExpr startV endV stepV
      = .ok ((pyRange startV endV stepV).map
          (fun iv => .io pn (Int.land (f iv) 255))) ∧
    0 < (pyRange startV endV stepV).length ∧
    (pyRange startV endV stepV).length ≠ (totalIters startV endV stepV).toNat := by
  have h0 : totalIters startV endV stepV = 0 := by
    rw [totalIters, if_neg (by omega)]
  have hlen : 0 < (pyRange startV endV stepV).length := by
    have hd : 0 < (-stepV).toNat := by omega
    rw [pyRange_length, pyRangeLen, if_neg (by omega), if_pos hst]
    have hdiv := (Nat.le_div_iff_mul_le hd).mpr
      (show 1 * (-stepV).toNat ≤ (startV - endV).toNat + ((-stepV).toNat - 1) by omega)
    omega
  refine ⟨h0, ?_, hlen, by omega⟩
  rw [expandFor, if_neg (by omega), if_neg (by rw [h0]; omega)]
  refine mapME_ok _ (fun iv hiv => ?_)
  simp only [loopBody, ioLine, hbody iv hiv, hport]

/-- Claim C9 (witness): the loop `for i in range(10, 0, -2)` computes zero
total iterations yet expands to five IO events. -/
theorem c9_witness :
    totalIters 10 0 (-2) = 0 ∧
    expandFor false 200000 "vdp_io2" "i" 10 0 (-2)
      = .ok [.io 138 10, .io 138 8, .io 138 6, .io 138 4, .io 138 2] := by
  have h := c9_descending_loop_inconsistency false 200000 "vdp_io2" "i" 10 0 (-2)
    (by decide) (by decide) (by decide) 138 (by decide) (fun iv => iv) (by decide)
  refine ⟨h.1, ?_⟩
  rw [h.2.1]
  decide

/-- Claim C5 (counterexample): a `write_io` statement whose port token is
neither symbolic nor numeric does not fail with `InvalidPort`: the write
pattern never matches it, the whole line is passed through as an INFO event,
and the run exits successfully — i.e. it is passed through as non-error
output. -/
theorem c5_counterexample :
    processLines false 200000 ["write_io(not_a_port, 1);\n"]
      = .ok [.info "write_io(not_a_port, 1);"] ∧
    (runConverter false ["write_io(not_a_port, 1);\n"]).1 = 0 := by
  refine ⟨by decide, by decide⟩

/-- Claim C5 (amended): symbolic ports resolve through the fixed table and
numeric tokens parse as integers.  A port token that does not match the
write pattern's port alternation at all (neither `vdp_io[0-3]` nor a
`0x`-hex or all-digit token, e.g. `not_a_port`) makes the whole statement
unrecognized: the line is passed through as a single `InfoEvent`, no
`IoEvent` with a default address is produced, and the run exits
successfully.  The `InvalidPort` failure is raised exactly when a matched
port token resolves neither through the table nor through `int(p, 0)` —
e.g. the all-digit token `07`, rejected by the leading-zero rule of `int`
with base 0 — and then the run fails with no output and nonzero exit. -/
theorem c5_unresolvable_port_passthrough :
    resolvePort "vdp_io0" = some 0x88 ∧
    resolvePort "0x8A" = some 0x8A ∧
    resolvePort "not_a_port" = none ∧
    reSearch reWrite "write_io(not_a_port, 1);" = none ∧
    runConverter false ["write_io(not_a_port, 1);\n"]
      = (0, ["INFO,\"write_io(not_a_port, 1);\""]) ∧
    resolvePort "07" = none ∧
    (reSearch reWrite "write_io(07, 1);").map (fun c => grp c 1) = some "07" ∧
    (∀ v : Int, ioLine "07" v = .error .invalidPort) ∧
    processLines false 200000 ["write_io(07, 1);\n"] = .error .invalidPort ∧
    runConverter false ["write_io(07, 1);\n"] = (1, []) := by
  refine ⟨by decide, by decide, by decide, by decide, by decide, by decide, by decide,
    fun v => rfl, by decide, by decide⟩

/-- Claim C6 (counterexample): increment recognition is not limited to the
three claimed forms: any text ending in `++` (here `j++`) yields step 1,
and a bare numeric expression (here `5`) yields its own value via the
fallback — neither fails with `UnsupportedIncrement`. -/
theorem c6_counterexample :
    parseIncrementExpr "j++" = .ok 1 ∧ parseIncrementExpr "5" = .ok 5 := by
  refine ⟨by decide, by decide⟩

/-- Claim C6 (amended): the three claimed forms reduce as stated (`i++` to
1, `i += e` and `i = i + e` to the value of `e`), but the `++` rule accepts
any trailing `++` and an unmatched increment falls back to evaluating the
whole text as an expression; `UnsupportedIncrement` is raised only when
that evaluation also fails. -/
theorem c6_increment_recognition :
    parseIncrementExpr "i++" = .ok 1 ∧
    parseIncrementExpr "i += 2" = .ok 2 ∧
    parseIncrementExpr "i = i + 3" = .ok 3 ∧
    parseIncrementExpr "j++" = .ok 1 ∧
    parseIncrementExpr "5" = .ok 5 ∧
    parseIncrementExpr "foo" = .error (.unsupportedIncrement "foo") := by
  refine ⟨by decide, by decide, by decide, by decide, by decide, by decide⟩

/-- Claim C7 (counterexample): when the accumulated block's header fails to
match, the single emitted `InfoEvent` carries only the trigger line, not
the entire accumulated block text — the remaining block lines (`stuff`,
`end`) are dropped from the output. -/
theorem c7_counterexample :
    processLines false 200000 ["for xxx begin\n", "stuff\n", "end\n", "write_io(vdp_io0, 1);\n"]
      = .ok [.info "for xxx begin", .io 0x88 1] ∧
    strContains "for xxx begin" "stuff" = false := by
  refine ⟨by decide, by decide⟩

/-- Claim C7 (amended): a for-block whose header does not match emits a
single `InfoEvent` containing only the trigger line (the accumulated
remainder of the block is consumed and dropped); a block whose header
matches but whose body has no matching write call emits a single
`InfoEvent` containing the entire accumulated block text; in both cases
processing continues and later statements still produce events. -/
theorem c7_malformed_block_passthrough :
    processLines false 200000 ["for xxx begin\n", "stuff\n", "end\n", "write_io(vdp_io0, 1);\n"]
      = .ok [.info "for xxx begin", .io 0x88 1] ∧
    processLines false 200000
      ["for (i=0; i<3; i++) begin\n", "nothing here\n", "end\n", "// done\n"]
      = .ok [.info "for (i=0; i<3; i++) begin\nnothing here\n\nend", .info "done"] := by
  refine ⟨by decide, by decide⟩

/-- Claim C8 (counterexample): after a standalone `repeat(N)` whose next
non-blank line is not a bare write call, only the repeat line is passed
through as an `InfoEvent`; the skipped line (`xyz`) is consumed and its
text is lost from the output stream. -/
theorem c8_counterexample :
    processLines false 200000 ["repeat(2)\n", "xyz\n", "// after\n"]
      = .ok [.info "repeat(2)", .info "after"] ∧
    Event.info "xyz" ∉ ([.info "repeat(2)", .info "after"] : List Event) := by
  refine ⟨by decide, by decide⟩

/-- Claim C8 (amended): for a standalone `repeat(N)` whose next non-blank
line is not a bare write call, the repeat line alone is passed through as an
`InfoEvent`, the skipped line is consumed and dropped, and the run
continues without a fatal error (exit status 0). -/
theorem c8_standalone_repeat_lossy :
    processLines false 200000 ["repeat(2)\n", "xyz\n", "// after\n"]
      = .ok [.info "repeat(2)", .info "after"] ∧
    runConverter false ["repeat(2)\n", "xyz\n", "// after\n"]
      = (0, ["INFO,\"repeat(2)\"", "INFO,\"after\""]) := by
  refine ⟨by decide, by decide⟩

/-- Claim C10 (counterexample): a run over empty input emits zero events
yet exits with status 0, contradicting "a run that emits zero events does
not exit with status 0". -/
theorem c10_counterexample : runConverter false [] = (0, []) := by decide

/-- Claim C10 (amended): the exit status is 0 exactly when processing
completes without a fatal evaluation error — regardless of how many events
were emitted (zero events still exit 0); usage errors exit 2 and fatal
evaluation errors exit 1. -/
theorem c10_exit_status :
    (∀ (emitC : Bool) (lines : List String),
      (runConverter emitC lines).1 = 0 ↔ ∃ evs, processLines emitC 200000 lines = .ok evs) ∧
    mainModel ["--help"] [] = (2, []) ∧
    mainModel ["--emit-c", "a", "b"] [] = (2, []) ∧
    runConverter false ["for (i=0;i<1;i+=0) begin write_io(vdp_io0,1); end"] = (1, []) ∧
    runConverter false [] = (0, []) := by
  refine ⟨?_, by decide, by decide, by decide, by decide⟩
  intro emitC lines
  rw [runConverter]
  cases h : processLines emitC 200000 lines with
  | ok evs => simp [h]
  | error e => simp [h]

end VConv
